import Mathlib

/-!
Verification of the BookElysium recommendation / catalog-enrichment core.

Shallow embedding of the storage layer (`src/server/storage.ts`,
`src/server/openLibraryService.ts` including the `DatabaseStorage` class)
and the HTTP route handlers (`src/server/routes.ts`).

Modelling conventions:
* Database tables and in-memory `Map`s are lists in insertion order;
  a `Map.set` on an existing key (and a SQL `UPDATE ... WHERE id = _`)
  is a position-preserving map-replace, and an insert appends.
* JavaScript numbers are embedded as `ℚ` (ratings) and `ℤ`/`ℕ`
  (counts, identifiers); `Math.round` (round half towards +infinity)
  is Mathlib's `round` on `ℚ`.
* The external Open Library HTTP calls are oracles passed as arguments:
  a listing call is `Option (List OLDoc)` (`none` models the call
  throwing, which the source catches), the best-effort description
  fetch is a function `String → Option String`.
* `await`ed sequential code becomes explicit state passing; each
  operation returns its result together with the updated store.
-/

namespace BookElysium

/-- Rows of the `books` table (shared/schema.ts `books`). -/
structure Book where
  id : Nat
  olid : String
  title : String
  author : String
  description : Option String
  cover : Option String
  rating : ℚ
  ratingCount : ℤ
  genre : Option String
  isFree : Bool
  publishDate : Option String
  url : Option String
deriving DecidableEq

/-- Rows of the `user_ratings` table (shared/schema.ts `userRatings`). -/
structure UserRating where
  id : Nat
  userId : Nat
  bookId : Nat
  rating : ℤ
  ratedAt : Nat
deriving DecidableEq

/-- Rows of the `saved_books` table (shared/schema.ts `savedBooks`). -/
structure SavedBook where
  id : Nat
  userId : Nat
  bookId : Nat
  savedAt : Nat
deriving DecidableEq

/-- Rows of the `book_comments` table (shared/schema.ts `bookComments`). -/
structure BookComment where
  id : Nat
  userId : Nat
  bookId : Nat
  comment : String
  createdAt : Nat
deriving DecidableEq

/-- The durable store: the tables the core reads and writes, plus the
surrogate-key counters (`currentXId` in `MemStorage`, sequences in SQL). -/
structure StoreState where
  books : List Book
  userRatings : List UserRating
  savedBooks : List SavedBook
  bookComments : List BookComment
  nextBookId : Nat
  nextRatingId : Nat
  nextSavedBookId : Nat
deriving DecidableEq

/-- JavaScript `Math.round(q * 10) / 10` — round to one decimal place
(`Math.round` rounds halves up, as Mathlib's `round` does). -/
def round1 (q : ℚ) : ℚ := (round (q * 10) : ℚ) / 10

/-- Stable insertion of `a` into a list sorted descending by `key`:
`a` is placed before the first element whose key is `≤ key a`. -/
def insertDescBy (key : α → ℚ) (a : α) : List α → List α
  | [] => [a]
  | b :: l => if key b ≤ key a then a :: b :: l else b :: insertDescBy key a l

/-- Stable sort, descending by `key` — the model of JavaScript's stable
`Array.prototype.sort` with a `(a, b) => keyB - keyA` comparator and of
SQL `ORDER BY _ DESC`. -/
def sortDescBy (key : α → ℚ) : List α → List α
  | [] => []
  | a :: l => insertDescBy key a (sortDescBy key l)

/-- First-occurrence deduplication: the model of
`Array.from(new Set(list))` and of `Map` key order, which keep insertion
order. -/
def dedupFirst [DecidableEq α] : List α → List α
  | [] => []
  | x :: xs => x :: (dedupFirst xs).filter (fun y => y ≠ x)

/-! ### MemStorage (src/server/storage.ts)

The in-memory storage variant used by the route layer
(`export const storage = new MemStorage()`). -/

/-- `MemStorage.getBook`: `this.books.get(id)`. -/
def memGetBook (s : StoreState) (id : Nat) : Option Book :=
  s.books.find? (fun b => b.id == id)

/-- `MemStorage.getUserRating`: first `UserRating` row matching
`(userId, bookId)`. -/
def memGetUserRating (s : StoreState) (userId bookId : Nat) : Option UserRating :=
  s.userRatings.find? (fun r => r.userId == userId && r.bookId == bookId)

/-- `MemStorage.updateBookRating`: recompute the book's aggregate from all
of its `UserRating` rows, rounding the mean to one decimal place. -/
def memUpdateBookRating (s : StoreState) (bookId : Nat) : StoreState :=
  match memGetBook s bookId with
  | none => s
  | some book =>
    let bookRatings := s.userRatings.filter (fun r => r.bookId == bookId)
    if bookRatings.length = 0 then s
    else
      let averageRating : ℚ :=
        (bookRatings.map (fun r => (r.rating : ℚ))).sum / bookRatings.length
      let updatedBook : Book :=
        { book with rating := round1 averageRating,
                    ratingCount := bookRatings.length }
      { s with books := s.books.map (fun b => if b.id == bookId then updatedBook else b) }

/-- `MemStorage.createOrUpdateUserRating`: update the existing row's value
and timestamp in place if one exists for `(userId, bookId)`, otherwise
append a fresh row; then recompute the book aggregate. `now` models
`new Date()`. Returns the written row and the new state. -/
def memCreateOrUpdateUserRating (s : StoreState) (userId bookId : Nat)
    (value : ℤ) (now : Nat) : UserRating × StoreState :=
  match memGetUserRating s userId bookId with
  | some existingRating =>
      let updatedRating : UserRating :=
        { existingRating with rating := value, ratedAt := now }
      let s1 : StoreState :=
        { s with userRatings :=
            s.userRatings.map (fun r => if r.id == existingRating.id then updatedRating else r) }
      (updatedRating, memUpdateBookRating s1 bookId)
  | none =>
      let newRating : UserRating :=
        ⟨s.nextRatingId, userId, bookId, value, now⟩
      let s1 : StoreState :=
        { s with userRatings := s.userRatings ++ [newRating],
                 nextRatingId := s.nextRatingId + 1 }
      (newRating, memUpdateBookRating s1 bookId)

/-- `MemStorage.isBookSaved`. -/
def memIsBookSaved (s : StoreState) (userId bookId : Nat) : Bool :=
  s.savedBooks.any (fun sb => sb.userId == userId && sb.bookId == bookId)

/-- `MemStorage.saveBook`: append a fresh `SavedBook` row. -/
def memSaveBook (s : StoreState) (userId bookId : Nat) (now : Nat) : StoreState :=
  { s with savedBooks := s.savedBooks ++ [⟨s.nextSavedBookId, userId, bookId, now⟩],
           nextSavedBookId := s.nextSavedBookId + 1 }

/-- `MemStorage.getSavedBooks`: the `Book` rows whose id appears among the
user's `SavedBook` rows (iterated in book-table order). -/
def memGetSavedBooks (s : StoreState) (userId : Nat) : List Book :=
  let bookIds := (s.savedBooks.filter (fun sb => sb.userId == userId)).map (·.bookId)
  s.books.filter (fun b => bookIds.contains b.id)

/-- `MemStorage.getTrendingBooks`: all books sorted by
`rating * ratingCount` descending, truncated to `limit`. -/
def memGetTrendingBooks (s : StoreState) (limit : Nat) : List Book :=
  (sortDescBy (fun b => b.rating * b.ratingCount) s.books).take limit

/-! ### Route handlers (src/server/routes.ts)

The handlers are modelled on their authenticated path (`req.isAuthenticated()`
true, `req.user.id = userId`); the zod `insert*Schema.parse` step only checks
the shape already guaranteed by the model's types. Each handler returns the
HTTP status it responds with, together with the resulting store. -/

/-- `POST /api/books/:id/rate`: reject values outside `[1, 5]` with a 400
before touching the store, otherwise delegate to
`createOrUpdateUserRating`. -/
def rateHandler (s : StoreState) (userId bookId : Nat) (value : ℤ) (now : Nat) :
    Nat × StoreState :=
  if value < 1 ∨ 5 < value then (400, s)
  else (200, (memCreateOrUpdateUserRating s userId bookId value now).2)

/-- `POST /api/books/:id/save`: 404 if the book does not exist, 400 if the
user already saved it, otherwise insert the `SavedBook` row (201). -/
def saveHandler (s : StoreState) (userId bookId : Nat) (now : Nat) :
    Nat × StoreState :=
  match memGetBook s bookId with
  | none => (404, s)
  | some _ =>
      if memIsBookSaved s userId bookId then (400, s)
      else (201, memSaveBook s userId bookId now)

/-! ### External Catalog Adapter (src/server/openLibraryService.ts)

`searchOpenLibrary` / `getBooksByCategory` / `getTrendingBooks` fetch a
`docs` array from the Open Library search API and hand it to
`processOpenLibraryResults`; the fetched `docs` are an oracle argument
here. -/

/-- One record of the Open Library search response (`OpenLibraryBook`).
Numeric fields use `ℤ`; `Option` marks the optional JSON fields. -/
structure OLDoc where
  key : String
  title : String
  author_name : Option (List String)
  first_publish_year : Option ℤ
  cover_i : Option Nat
  subject : List String
  ebook_access : Option String
  edition_count : Option ℤ
deriving DecidableEq

/-- JavaScript `x || d` for an optional number `x`: `undefined` and `0`
both fall back to the default. -/
def orFalsy (o : Option ℤ) (d : ℤ) : ℤ :=
  match o with
  | none => d
  | some n => if n = 0 then d else n

/-- `key.split('/').pop() || ''`: the last path segment of the foreign
identifier, i.e. everything after the final `'/'` (e.g. `/works/OL123W`
↦ `OL123W`; a trailing slash yields `""`, matching `pop()` on the split
array). -/
def lastSegment (s : String) : String :=
  ⟨(s.toList.reverse.takeWhile (fun c => c ≠ '/')).reverse⟩

/-- `book.author_name?.join(', ') || 'Unknown'`. -/
def joinAuthors : Option (List String) → String
  | none => "Unknown"
  | some names =>
      let j := String.intercalate ", " names
      if j = "" then "Unknown" else j

/-- The provisional-rating formula of `processOpenLibraryResults`
(search listings, edition cap 20):
`round((3 + (1 - ageFactor) * 1.5 + editionFactor * 0.5) * 10) / 10` with
`ageFactor = min(currentYear - (first_publish_year || currentYear), 50) / 50`
and `editionFactor = min(edition_count || 1, 20) / 20`. -/
def calculatedRatingSearch (currentYear : ℤ) (fpy ec : Option ℤ) : ℚ :=
  let yearsOld : ℤ := currentYear - orFalsy fpy currentYear
  let ageFactor : ℚ := (min yearsOld 50 : ℤ) / 50
  let editionCount : ℤ := orFalsy ec 1
  let editionFactor : ℚ := (min editionCount 20 : ℤ) / 20
  round1 (3 + (1 - ageFactor) * (3 / 2) + editionFactor * (1 / 2))

/-- The provisional rating-count formula of `processOpenLibraryResults`:
`round(editionCount * 10 + (1 - ageFactor) * 100)`. -/
def calculatedRatingCountSearch (currentYear : ℤ) (fpy ec : Option ℤ) : ℤ :=
  let yearsOld : ℤ := currentYear - orFalsy fpy currentYear
  let ageFactor : ℚ := (min yearsOld 50 : ℤ) / 50
  let editionCount : ℤ := orFalsy ec 1
  round ((editionCount : ℚ) * 10 + (1 - ageFactor) * 100)

/-- The provisional-rating formula of `getBookByOLID` (single-work
fetches): identical shape, but the popularity proxy is `data.revision`
capped at 30. `publishYear` is the parsed `first_publish_date` when
present and truthy (`publishDate ? parseInt(publishDate) : currentYear`),
modelled as an already-parsed optional year. -/
def calculatedRatingWork (currentYear : ℤ) (publishYear revision : Option ℤ) : ℚ :=
  let py : ℤ := publishYear.getD currentYear
  let yearsOld : ℤ := currentYear - py
  let ageFactor : ℚ := (min yearsOld 50 : ℤ) / 50
  let editionCount : ℤ := orFalsy revision 1
  let editionFactor : ℚ := (min editionCount 30 : ℤ) / 30
  round1 (3 + (1 - ageFactor) * (3 / 2) + editionFactor * (1 / 2))

/-- The `InsertBook` built from one search record in
`processOpenLibraryResults`, given the freshly assigned serial id and the
result of the best-effort description fetch. -/
def mkBookFromDoc (id : Nat) (olid : String) (doc : OLDoc) (currentYear : ℤ)
    (description : Option String) : Book :=
  { id := id
    olid := olid
    title := doc.title
    author := joinAuthors doc.author_name
    description := description
    cover := doc.cover_i.map
      (fun c => "https://covers.openlibrary.org/b/id/" ++ toString c ++ "-L.jpg")
    rating := calculatedRatingSearch currentYear doc.first_publish_year doc.edition_count
    ratingCount := calculatedRatingCountSearch currentYear doc.first_publish_year doc.edition_count
    genre := doc.subject.head?
    isFree := doc.ebook_access == some "public" || doc.ebook_access == some "borrowable"
    publishDate :=
      match doc.first_publish_year with
      | none => none
      | some y => if y = 0 then none else some (toString y)
    url := some ("https://openlibrary.org" ++ doc.key) }

/-- One iteration of the `processOpenLibraryResults` loop: skip records
with a falsy key or title; if a local `Book` row with the derived `olid`
already exists, emit the existing row unchanged; otherwise build and
insert a new row. -/
def processOneDoc (currentYear : ℤ) (descOf : String → Option String)
    (acc : List Book × StoreState) (doc : OLDoc) : List Book × StoreState :=
  if doc.key = "" || doc.title = "" then acc
  else
    let olid := lastSegment doc.key
    match acc.2.books.find? (fun b => b.olid == olid) with
    | some existingBook => (acc.1 ++ [existingBook], acc.2)
    | none =>
        let newBook := mkBookFromDoc acc.2.nextBookId olid doc currentYear (descOf olid)
        (acc.1 ++ [newBook],
         { acc.2 with books := acc.2.books ++ [newBook],
                      nextBookId := acc.2.nextBookId + 1 })

/-- `processOpenLibraryResults`: fold the per-record step over the fetched
`docs`, returning the processed books and the store they were merged
into. -/
def processOpenLibraryResults (s : StoreState) (docs : List OLDoc)
    (currentYear : ℤ) (descOf : String → Option String) : List Book × StoreState :=
  docs.foldl (processOneDoc currentYear descOf) ([], s)

/-! ### DatabaseStorage (src/server/openLibraryService.ts, `DatabaseStorage`)

The SQL-backed storage variant.  Each read path that may fall through to
Open Library takes the fetched `docs` as an `Option (List OLDoc)` oracle
(`none` = the external call threw and the `catch` branch runs) and
reports whether the external call was reached as a `Bool`, so the
local-first frame property is directly observable. -/

/-- Lower-casing of a string, character by character (the model of SQL
`LOWER` and of the `ILIKE` case folding). -/
def lowerStr (s : String) : List Char := s.toList.map Char.toLower

/-- SQL `LOWER(genre) = LOWER(category)`: case-insensitive genre match;
a `NULL` genre never matches. -/
def catMatches (category : String) (b : Book) : Bool :=
  match b.genre with
  | some g => lowerStr g == lowerStr category
  | none => false

/-- Contiguous-sublist test on lists (used to model SQL `ILIKE '%q%'`). -/
def isInfixOfL [DecidableEq α] (p : List α) : List α → Bool
  | [] => p.isEmpty
  | a :: l => p.isPrefixOf (a :: l) || isInfixOfL p l

/-- SQL `title ILIKE '%q%' OR author ILIKE '%q%'`: case-insensitive
substring match on title or author (the query is taken literally, i.e.
without further `%`/`_` metacharacters). -/
def searchMatches (query : String) (b : Book) : Bool :=
  isInfixOfL (lowerStr query) (lowerStr b.title) ||
  isInfixOfL (lowerStr query) (lowerStr b.author)

/-- `new Map(combined.map(book => [book.olid, book])).values()`: one book
per distinct `olid`, keyed in first-occurrence order, the last book with
that `olid` winning. -/
def dedupByOlid (l : List Book) : List Book :=
  (dedupFirst (l.map (·.olid))).filterMap
    (fun k => (l.filter (fun b => b.olid == k)).getLast?)

/-- `DatabaseStorage.getBooks`: plain `SELECT ... LIMIT limit OFFSET offset`,
local-only. -/
def dbGetBooks (s : StoreState) (limit offset : Nat) : List Book :=
  ((s.books.drop offset).take limit)

/-- `DatabaseStorage.getBooksByCategory`: local genre query first; if it
already yields `limit` rows return it (no external call), otherwise fetch
`limit - localCount` records from Open Library, merge them through
`processOpenLibraryResults`, and append up to the shortfall.  A throwing
external call falls back to the local rows. -/
def dbGetBooksByCategory (s : StoreState) (category : String) (limit offset : Nat)
    (ext : Option (List OLDoc)) (currentYear : ℤ) (descOf : String → Option String) :
    List Book × StoreState × Bool :=
  let localBooks := ((s.books.filter (catMatches category)).drop offset).take limit
  if limit ≤ localBooks.length then (localBooks, s, false)
  else
    match ext with
    | none => (localBooks, s, true)
    | some docs =>
        let p := processOpenLibraryResults s docs currentYear descOf
        (localBooks ++ p.1.take (limit - localBooks.length), p.2, true)

/-- `DatabaseStorage.getBooksByCategoryCount`: the local count, floored at
the heuristic constant 100. -/
def dbGetBooksByCategoryCount (s : StoreState) (category : String) : Nat :=
  max (s.books.filter (catMatches category)).length 100

/-- `DatabaseStorage.searchBooks`: local ILIKE query first; if short,
fetch the shortfall from Open Library (offset shifted by the local
count), drop records whose `olid` is already among the local page, append
and truncate to `limit`. -/
def dbSearchBooks (s : StoreState) (query : String) (limit offset : Nat)
    (ext : Option (List OLDoc)) (currentYear : ℤ) (descOf : String → Option String) :
    List Book × StoreState × Bool :=
  let localBooks := ((s.books.filter (searchMatches query)).drop offset).take limit
  if limit ≤ localBooks.length then (localBooks, s, false)
  else
    match ext with
    | none => (localBooks, s, true)
    | some docs =>
        let p := processOpenLibraryResults s docs currentYear descOf
        let seenOlids := localBooks.map (·.olid)
        let filtered := p.1.filter (fun b => !seenOlids.contains b.olid)
        ((localBooks ++ filtered).take limit, p.2, true)

/-- `DatabaseStorage.searchBooksCount`: the local count, floored at the
heuristic constant 1000. -/
def dbSearchBooksCount (s : StoreState) (query : String) : Nat :=
  max (s.books.filter (searchMatches query)).length 1000

/-- `DatabaseStorage.getTrendingBooks`: local books ordered by rating
descending; if a full page with a real rating signal
(`localBooks[0].rating > 0`) exists, return it without an external call;
otherwise merge the Open Library "trending" fetch, dedup by `olid`, and
truncate. -/
def dbGetTrendingBooks (s : StoreState) (limit : Nat)
    (ext : Option (List OLDoc)) (currentYear : ℤ) (descOf : String → Option String) :
    List Book × StoreState × Bool :=
  let localBooks := (sortDescBy (fun b => b.rating) s.books).take limit
  if limit ≤ localBooks.length ∧ (match localBooks.head? with
      | some b => decide (0 < b.rating)
      | none => false) = true then
    (localBooks, s, false)
  else
    match ext with
    | none => (localBooks, s, true)
    | some docs =>
        let p := processOpenLibraryResults s docs currentYear descOf
        ((dedupByOlid (localBooks ++ p.1)).take limit, p.2, true)

/-- `DatabaseStorage.getMostPurchasedBooks`: as trending, but ordered by
`ratingCount` descending and backed by a `searchOpenLibrary('bestsellers')`
fetch. -/
def dbGetMostPurchasedBooks (s : StoreState) (limit : Nat)
    (ext : Option (List OLDoc)) (currentYear : ℤ) (descOf : String → Option String) :
    List Book × StoreState × Bool :=
  let localBooks := (sortDescBy (fun b => (b.ratingCount : ℚ)) s.books).take limit
  if limit ≤ localBooks.length ∧ (match localBooks.head? with
      | some b => decide (0 < b.ratingCount)
      | none => false) = true then
    (localBooks, s, false)
  else
    match ext with
    | none => (localBooks, s, true)
    | some docs =>
        let p := processOpenLibraryResults s docs currentYear descOf
        ((dedupByOlid (localBooks ++ p.1)).take limit, p.2, true)

/-- `DatabaseStorage.getUserRating`: the `user_ratings` row for
`(userId, bookId)`. -/
def dbGetUserRating (s : StoreState) (userId bookId : Nat) : Option UserRating :=
  s.userRatings.find? (fun r => r.userId == userId && r.bookId == bookId)

/-- `DatabaseStorage.updateBookRating`: recompute the aggregate as
`SET rating = Math.round(AVG(rating)), rating_count = COUNT(*)` — note the
rounding to the nearest integer, unlike the one-decimal rounding of
`MemStorage.updateBookRating`. -/
def dbUpdateBookRating (s : StoreState) (bookId : Nat) : StoreState :=
  let bookRatings := s.userRatings.filter (fun r => r.bookId == bookId)
  if bookRatings.length = 0 then s
  else
    let avgRating : ℚ :=
      (bookRatings.map (fun r => (r.rating : ℚ))).sum / bookRatings.length
    { s with books := s.books.map (fun b =>
        if b.id == bookId then
          { b with rating := (round avgRating : ℤ), ratingCount := bookRatings.length }
        else b) }

/-- `DatabaseStorage.createOrUpdateUserRating`: update the existing row's
`rating` column in place (the `ratedAt` column is not touched) or insert
a fresh row (whose `ratedAt` defaults to now); then recompute the book
aggregate. -/
def dbCreateOrUpdateUserRating (s : StoreState) (userId bookId : Nat)
    (value : ℤ) (now : Nat) : UserRating × StoreState :=
  match dbGetUserRating s userId bookId with
  | some existingRating =>
      let updatedRating : UserRating := { existingRating with rating := value }
      let s1 : StoreState :=
        { s with userRatings :=
            s.userRatings.map (fun r => if r.id == existingRating.id then updatedRating else r) }
      (updatedRating, dbUpdateBookRating s1 bookId)
  | none =>
      let newRating : UserRating :=
        ⟨s.nextRatingId, userId, bookId, value, now⟩
      let s1 : StoreState :=
        { s with userRatings := s.userRatings ++ [newRating],
                 nextRatingId := s.nextRatingId + 1 }
      (newRating, dbUpdateBookRating s1 bookId)

/-! ### Recommendation engines -/

/-- `freq[key] = (freq[key] || 0) + weight` on a JavaScript object:
bump the existing entry's count in place, or append a new entry
(object keys keep insertion order). -/
def addWeight (tbl : List (String × Nat)) (k : String) (w : Nat) : List (String × Nat) :=
  if tbl.any (fun p => p.1 == k) then
    tbl.map (fun p => if p.1 == k then (p.1, p.2 + w) else p)
  else tbl ++ [(k, w)]

/-- The genre-frequency table of `DatabaseStorage.getRecommendedBooks`:
each interacted book with a truthy genre contributes weight 2 if it was
rated ≥ 4 by the user, else 1. -/
def genreFrequency (interactedBooks : List Book) (highlyRatedBookIds : List Nat) :
    List (String × Nat) :=
  interactedBooks.foldl (fun tbl b =>
    match b.genre with
    | some g =>
        if g = "" then tbl
        else addWeight tbl g (if highlyRatedBookIds.contains b.id then 2 else 1)
    | none => tbl) []

/-- The author-frequency table: identical weighting over truthy
authors. -/
def authorFrequency (interactedBooks : List Book) (highlyRatedBookIds : List Nat) :
    List (String × Nat) :=
  interactedBooks.foldl (fun tbl b =>
    if b.author = "" then tbl
    else addWeight tbl b.author (if highlyRatedBookIds.contains b.id then 2 else 1)) []

/-- Sort a frequency table by count descending, keep the top 3 keys,
drop empty ones. -/
def topThree (tbl : List (String × Nat)) : List String :=
  (((sortDescBy (fun p => (p.2 : ℚ)) tbl).take 3).map (·.1)).filter (fun k => k ≠ "")

/-- The user's rating rows, ordered by rating value descending (the
`userRatedBooks` query of `DatabaseStorage.getRecommendedBooks`). -/
def userRatedBooksOf (s : StoreState) (userId : Nat) : List UserRating :=
  sortDescBy (fun r => (r.rating : ℚ)) (s.userRatings.filter (fun r => r.userId == userId))

/-- The user's `SavedBook` rows (`userSavedBooks`). -/
def userSavedBooksOf (s : StoreState) (userId : Nat) : List SavedBook :=
  s.savedBooks.filter (fun sb => sb.userId == userId)

/-- The user's `BookComment` rows (`userCommentedBooks`). -/
def userCommentedBooksOf (s : StoreState) (userId : Nat) : List BookComment :=
  s.bookComments.filter (fun c => c.userId == userId)

/-- The "already interacted" id set (`interactedBookIds`, a JavaScript
`Set` built from the rated, saved and commented book ids in that
order). -/
def interactedBookIdsOf (s : StoreState) (userId : Nat) : List Nat :=
  dedupFirst ((userRatedBooksOf s userId).map (·.bookId)
    ++ (userSavedBooksOf s userId).map (·.bookId)
    ++ (userCommentedBooksOf s userId).map (·.bookId))

/-- Ids of books the user rated at least 4 (`highlyRatedBookIds`). -/
def highlyRatedBookIdsOf (s : StoreState) (userId : Nat) : List Nat :=
  ((userRatedBooksOf s userId).filter (fun r => decide (4 ≤ r.rating))).map (·.bookId)

/-- The full rows of the interacted books (`interactedBooks`). -/
def interactedBooksOf (s : StoreState) (userId : Nat) : List Book :=
  s.books.filter (fun b => (interactedBookIdsOf s userId).contains b.id)

/-- The user's top 3 genres by weighted frequency (`topGenres`). -/
def topGenresOf (s : StoreState) (userId : Nat) : List String :=
  topThree (genreFrequency (interactedBooksOf s userId) (highlyRatedBookIdsOf s userId))

/-- The user's top 3 authors by weighted frequency (`topAuthors`). -/
def topAuthorsOf (s : StoreState) (userId : Nat) : List String :=
  topThree (authorFrequency (interactedBooksOf s userId) (highlyRatedBookIdsOf s userId))

/-- The preference condition of the recommendation query: genre among the
top genres, or author among the top authors (the OR-joined `conditions`
array; the two chained `.where` clauses are modelled conjunctively). -/
def prefCondOf (s : StoreState) (userId : Nat) (b : Book) : Bool :=
  (topGenresOf s userId).any (fun g => b.genre == some g) ||
  (topAuthorsOf s userId).any (fun a => b.author == a)

/-- The preference query: matching books excluding every interacted id,
ordered by rating descending, limited (`recommendations` before the
top-up). -/
def preferenceRecs (s : StoreState) (userId limit : Nat) : List Book :=
  (sortDescBy (fun b => b.rating)
    (s.books.filter (fun b =>
      prefCondOf s userId b && !(interactedBookIdsOf s userId).contains b.id))).take limit

/-- `DatabaseStorage.getRecommendedBooks`: gather the user's rated, saved
and commented books; with no history at all return trending.  Otherwise
derive top genres/authors (weighted 2 for books rated ≥ 4), run the
preference query, top up with trending filtered against interacted and
already-chosen ids, and fall back to plain trending whenever the
preference signal or the assembled list is empty.  `extTopUp`/`extFinal`
are the Open Library oracles for the (up to two) internal
`getTrendingBooks` calls. -/
def dbGetRecommendedBooks (s : StoreState) (userId limit : Nat)
    (extTopUp extFinal : Option (List OLDoc)) (currentYear : ℤ)
    (descOf : String → Option String) : List Book × StoreState :=
  if (userRatedBooksOf s userId).length = 0 ∧ (userSavedBooksOf s userId).length = 0 ∧
      (userCommentedBooksOf s userId).length = 0 then
    let t := dbGetTrendingBooks s limit extFinal currentYear descOf
    (t.1, t.2.1)
  else
    if (interactedBooksOf s userId).length = 0 then
      let t := dbGetTrendingBooks s limit extFinal currentYear descOf
      (t.1, t.2.1)
    else
      if (topGenresOf s userId).length = 0 ∧ (topAuthorsOf s userId).length = 0 then
        let t := dbGetTrendingBooks s limit extFinal currentYear descOf
        (t.1, t.2.1)
      else
        let recommendations0 := preferenceRecs s userId limit
        let step :=
          if recommendations0.length < limit then
            let tr := dbGetTrendingBooks s (limit * 2) extTopUp currentYear descOf
            let existingIds := recommendations0.map (·.id)
            (recommendations0 ++
              (tr.1.filter (fun b =>
                !existingIds.contains b.id &&
                !(interactedBookIdsOf s userId).contains b.id)).take
                (limit - recommendations0.length),
             tr.2.1)
          else (recommendations0, s)
        if step.1.length = 0 then
          let t := dbGetTrendingBooks step.2 limit extFinal currentYear descOf
          (t.1, t.2.1)
        else step

/-- The genre loop of `MemStorage.getRecommendedBooks`: for each preferred
genre in order, append that genre's not-saved books sorted by rating
descending, stopping once `limit` is reached. -/
def collectByGenres (s : StoreState) (savedBooks : List Book) (limit : Nat) :
    List String → List Book → List Book
  | [], acc => acc
  | genre :: rest, acc =>
      let genreBooks := sortDescBy (fun b => b.rating)
        (s.books.filter (fun b =>
          b.genre == some genre && !savedBooks.any (fun saved => saved.id == b.id)))
      let acc2 := acc ++ genreBooks
      if limit ≤ acc2.length then acc2
      else collectByGenres s savedBooks limit rest acc2

/-- `MemStorage.getRecommendedBooks`: the simple variant — preferences
come from saved books only (ratings and comments are not consulted),
genre counts are unweighted, and the result is topped up from trending
filtered against saved and already-chosen books, then truncated. -/
def memGetRecommendedBooks (s : StoreState) (userId limit : Nat) : List Book :=
  let savedBooks := memGetSavedBooks s userId
  if savedBooks.length = 0 then memGetTrendingBooks s limit
  else
    let genres := savedBooks.filterMap (·.genre)
    if genres.length = 0 then memGetTrendingBooks s limit
    else
      let genreCounts := genres.foldl (fun tbl g => addWeight tbl g 1) []
      let preferredGenres := (sortDescBy (fun p => (p.2 : ℚ)) genreCounts).map (·.1)
      let recommendedBooks := collectByGenres s savedBooks limit preferredGenres []
      let recommendedBooks2 :=
        if recommendedBooks.length < limit then
          let savedBookIds := savedBooks.map (·.id)
          let trendingBooks := memGetTrendingBooks s (limit * 2)
          recommendedBooks ++
            (trendingBooks.filter (fun b =>
              !savedBookIds.contains b.id &&
              !recommendedBooks.any (fun chosen => chosen.id == b.id))).take
              (limit - recommendedBooks.length)
        else recommendedBooks
      recommendedBooks2.take limit

/-! ### Derived notions used by the statements -/

/-- The `UserRating` rows of one `(userId, bookId)` pair. -/
def rowsForPair (rs : List UserRating) (userId bookId : Nat) : List UserRating :=
  rs.filter (fun r => r.userId == userId && r.bookId == bookId)

/-- The `UserRating` rows of one book. -/
def rowsForBook (rs : List UserRating) (bookId : Nat) : List UserRating :=
  rs.filter (fun r => r.bookId == bookId)

/-- No two rating rows share a `(userId, bookId)` pair. -/
def pairUnique (rs : List UserRating) : Prop :=
  rs.Pairwise (fun r1 r2 => ¬(r1.userId = r2.userId ∧ r1.bookId = r2.bookId))

/-- Well-formedness of the rating store: pairwise-distinct `(userId,
bookId)` pairs (the spec invariant), pairwise-distinct primary keys, and
a serial counter strictly above every existing key. -/
structure RatingInv (s : StoreState) : Prop where
  pairs : pairUnique s.userRatings
  ids : (s.userRatings.map (·.id)).Nodup
  fresh : ∀ r ∈ s.userRatings, r.id < s.nextRatingId

/-- A sequence of `DatabaseStorage.createOrUpdateUserRating` calls by one
user for one book, each with a value and a timestamp. -/
def dbRateSeq (s : StoreState) (userId bookId : Nat) : List (ℤ × Nat) → StoreState
  | [] => s
  | (v, t) :: rest =>
      dbRateSeq ((dbCreateOrUpdateUserRating s userId bookId v t).2) userId bookId rest

/-- The book ids of the user's rated rows (the first component of the
"already interacted" set of `DatabaseStorage.getRecommendedBooks`). -/
def ratedBookIds (s : StoreState) (userId : Nat) : List Nat :=
  (s.userRatings.filter (fun r => r.userId == userId)).map (·.bookId)

/-- The book ids the user has saved. -/
def savedBookIds (s : StoreState) (userId : Nat) : List Nat :=
  (s.savedBooks.filter (fun sb => sb.userId == userId)).map (·.bookId)

/-- The book ids the user has commented on. -/
def commentedBookIds (s : StoreState) (userId : Nat) : List Nat :=
  (s.bookComments.filter (fun c => c.userId == userId)).map (·.bookId)

/-! ### Concrete sample data for counterexamples and witnesses -/

/-- A seeded book with one locally accumulated rating. -/
def duneBook : Book :=
  ⟨1, "OL1W", "Dune", "Frank Herbert", none, none, 5, 1, some "Fantasy", false, none, none⟩

/-- A freshly seeded book with no ratings yet. -/
def blankBook : Book :=
  ⟨1, "OL1W", "Dune", "Frank Herbert", none, none, 0, 0, some "Fantasy", false, none, none⟩

/-- A store holding `blankBook` and nothing else. -/
def blankStore : StoreState := ⟨[blankBook], [], [], [], 2, 1, 1⟩

/-- A store holding `duneBook`, rated 5 by user 1. -/
def ratedStore : StoreState := ⟨[duneBook], [⟨1, 1, 1, 5, 0⟩], [], [], 2, 2, 1⟩

/-- A store holding `duneBook`, saved by user 1. -/
def savedStore : StoreState := ⟨[duneBook], [], [⟨1, 1, 1, 0⟩], [], 2, 1, 2⟩

/-- Five distinct Fantasy books. -/
def fantasyShelf : List Book :=
  [⟨1, "OLa", "A", "x", none, none, 0, 0, some "Fantasy", false, none, none⟩,
   ⟨2, "OLb", "B", "x", none, none, 0, 0, some "Fantasy", false, none, none⟩,
   ⟨3, "OLc", "C", "x", none, none, 0, 0, some "Fantasy", false, none, none⟩,
   ⟨4, "OLd", "D", "x", none, none, 0, 0, some "Fantasy", false, none, none⟩,
   ⟨5, "OLe", "E", "x", none, none, 0, 0, some "Fantasy", false, none, none⟩]

/-- A store holding exactly the five Fantasy books. -/
def fantasyStore : StoreState := ⟨fantasyShelf, [], [], [], 6, 1, 1⟩

/-- A well-formed foreign search record for a work not yet stored
locally. -/
def freshDoc : OLDoc :=
  ⟨"/works/OL2W", "Hyperion", some ["Dan Simmons"], some 1989, none, ["Science Fiction"],
    some "public", some 5⟩

/-- The store after user 1 rates `blankBook` with 4 through the
database-backed aggregator. -/
def afterFirstRating : StoreState := (dbCreateOrUpdateUserRating blankStore 1 1 4 0).2

/-- The store after user 2 then rates the same book with 5. -/
def afterSecondRating : StoreState := (dbCreateOrUpdateUserRating afterFirstRating 2 1 5 1).2

/-- The store after user 1 re-rates the same book with 5 at time 7
(instead of a second user rating it). -/
def afterReRating : StoreState := (dbCreateOrUpdateUserRating afterFirstRating 1 1 5 7).2

/-! ## Helper lemmas -/

theorem length_insertDescBy (key : α → ℚ) (a : α) (l : List α) :
    (insertDescBy key a l).length = l.length + 1 := by
  induction l with
  | nil => rfl
  | cons b l ih =>
      simp only [insertDescBy]
      split <;> simp [ih]

theorem length_sortDescBy (key : α → ℚ) (l : List α) :
    (sortDescBy key l).length = l.length := by
  induction l with
  | nil => rfl
  | cons a l ih => simp [sortDescBy, length_insertDescBy, ih]

theorem mem_insertDescBy (key : α → ℚ) (a x : α) (l : List α) :
    x ∈ insertDescBy key a l ↔ x = a ∨ x ∈ l := by
  induction l with
  | nil => simp [insertDescBy]
  | cons b l ih =>
      simp only [insertDescBy]
      split
      · simp
      · simp only [List.mem_cons, ih]
        tauto

theorem mem_sortDescBy (key : α → ℚ) (x : α) (l : List α) :
    x ∈ sortDescBy key l ↔ x ∈ l := by
  induction l with
  | nil => simp [sortDescBy]
  | cons a l ih => simp [sortDescBy, mem_insertDescBy, ih]

theorem mem_dedupFirst [DecidableEq α] (y : α) (l : List α) :
    y ∈ dedupFirst l ↔ y ∈ l := by
  induction l with
  | nil => simp [dedupFirst]
  | cons x xs ih =>
      simp only [dedupFirst, List.mem_cons, List.mem_filter, ih]
      by_cases h : y = x <;> simp [h]

/-! ## C3 — out-of-range ratings are rejected without touching the store -/

/-- C3: invoking the rating endpoint with a value outside `[1, 5]`
answers HTTP 400 and returns the store unchanged — no `UserRating` row is
created or updated and the book's `rating`/`ratingCount` are untouched. -/
theorem rate_out_of_range_rejected (s : StoreState) (userId bookId : Nat)
    (value : ℤ) (now : Nat) (h : value < 1 ∨ 5 < value) :
    rateHandler s userId bookId value now = (400, s) := by
  unfold rateHandler
  rw [if_pos h]

/-- C3 witness: `rate(user 1, book 1, 6)` on the singleton store is
rejected with 400 and leaves the store as it was. -/
theorem rate_out_of_range_rejected_witness :
    ((6 : ℤ) < 1 ∨ 5 < (6 : ℤ)) ∧
      rateHandler blankStore 1 1 6 0 = (400, blankStore) :=
  ⟨by decide, rate_out_of_range_rejected blankStore 1 1 6 0 (by decide)⟩

/-! ## C8 — duplicate saves are rejected, but with status 400, not 409 -/

/-- C8 counterexample: user 1 already saved book 1; a second save request
is answered with HTTP 400 (and an unchanged store), not with the 409 the
claim states. -/
theorem duplicate_save_status_counterexample :
    saveHandler savedStore 1 1 3 = (400, savedStore) ∧ (400 : Nat) ≠ 409 := by
  constructor
  · decide
  · decide

/-- C8 amended: a save request for a book the user has already saved is
rejected with HTTP 400 (Bad Request) — not 409 — and the store is
unchanged, so no second `SavedBook` row for the pair is created. -/
theorem duplicate_save_rejected (s : StoreState) (userId bookId : Nat) (now : Nat)
    (hbook : (memGetBook s bookId).isSome) (hsaved : memIsBookSaved s userId bookId = true) :
    saveHandler s userId bookId now = (400, s) := by
  unfold saveHandler
  cases h : memGetBook s bookId with
  | none => rw [h] at hbook; simp at hbook
  | some b => simp [hsaved]

/-- C8 witness: the duplicate save on the concrete saved store is
rejected with 400. -/
theorem duplicate_save_rejected_witness :
    (memGetBook savedStore 1).isSome ∧ memIsBookSaved savedStore 1 1 = true ∧
      saveHandler savedStore 1 1 3 = (400, savedStore) :=
  ⟨by decide, by decide, duplicate_save_rejected savedStore 1 1 3 (by decide) (by decide)⟩

/-! ## C7 — the total-count estimate is never the exact local count below
the heuristic floor -/

/-- C7 counterexample: a category with exactly 5 local books, read with
page size 5 — the listing is served locally (no external call), so the
claim demands an exact `totalBooks` of 5, but the estimate is 100. -/
theorem totalCount_counterexample :
    (fantasyStore.books.filter (catMatches "Fantasy")).length = 5 ∧
    dbGetBooksByCategory fantasyStore "Fantasy" 5 0 (some []) 2024 (fun _ => none)
      = (fantasyShelf, fantasyStore, false) ∧
    dbGetBooksByCategoryCount fantasyStore "Fantasy" = 100 ∧
    (100 : Nat) ≠ 5 := by
  refine ⟨by decide, by decide, by decide, by decide⟩

/-- C7 amended: the total-count estimate for category and search listings
always equals `max(localCount, K)` with the heuristic constant `K` (100
for categories, 1000 for search), independently of the page size; it
equals the true local matching count exactly when that count reaches the
constant. -/
theorem totalCount_exact_iff (s : StoreState) (category query : String) :
    (dbGetBooksByCategoryCount s category = (s.books.filter (catMatches category)).length
      ↔ 100 ≤ (s.books.filter (catMatches category)).length) ∧
    (dbSearchBooksCount s query = (s.books.filter (searchMatches query)).length
      ↔ 1000 ≤ (s.books.filter (searchMatches query)).length) := by
  unfold dbGetBooksByCategoryCount dbSearchBooksCount
  omega

/-! ## C6 — local-first: a full local page short-circuits the external
catalog -/

/-- C6: whenever the local store yields at least `limit` matching rows at
the requested offset, the category and search read paths return exactly
those local rows, make no external call, and leave the store unchanged
(no new `Book` row). -/
theorem local_first_no_external (s : StoreState) (category query : String)
    (limit offset : Nat) (ext ext2 : Option (List OLDoc)) (cy : ℤ)
    (d : String → Option String)
    (hcat : limit ≤ ((s.books.filter (catMatches category)).drop offset).length)
    (hq : limit ≤ ((s.books.filter (searchMatches query)).drop offset).length) :
    dbGetBooksByCategory s category limit offset ext cy d
      = (((s.books.filter (catMatches category)).drop offset).take limit, s, false) ∧
    dbSearchBooks s query limit offset ext2 cy d
      = (((s.books.filter (searchMatches query)).drop offset).take limit, s, false) := by
  constructor
  · simp only [dbGetBooksByCategory]
    rw [if_pos]
    rw [List.length_take]
    omega
  · simp only [dbSearchBooks]
    rw [if_pos]
    rw [List.length_take]
    omega

/-- C6 witness: one matching local book with page size 1 — both read
paths answer locally with the external flag down. -/
theorem local_first_no_external_witness :
    1 ≤ ((blankStore.books.filter (catMatches "Fantasy")).drop 0).length ∧
    1 ≤ ((blankStore.books.filter (searchMatches "dune")).drop 0).length ∧
    dbGetBooksByCategory blankStore "Fantasy" 1 0 (some [freshDoc]) 2024 (fun _ => none)
      = ([blankBook], blankStore, false) ∧
    dbSearchBooks blankStore "dune" 1 0 (some [freshDoc]) 2024 (fun _ => none)
      = ([blankBook], blankStore, false) := by
  have h := local_first_no_external blankStore "Fantasy" "dune" 1 0
    (some [freshDoc]) (some [freshDoc]) 2024 (fun _ => none) (by decide) (by decide)
  exact ⟨by decide, by decide, by rw [h.1]; decide, by rw [h.2]; decide⟩

/-! ## C5 — catalog dedup by the stable external key -/

/-- C5: when the search path of the external adapter first meets a
record whose derived stable key (`olid`, the last path segment of the
foreign identifier) is not yet stored, it inserts exactly one `Book` row
for that key; feeding the same record through again returns the existing
row unchanged and creates no second row — the store (hence the row's
`rating`/`ratingCount`) is untouched by the second call. -/
theorem external_search_dedup (s : StoreState) (doc : OLDoc) (cy : ℤ)
    (d : String → Option String)
    (hkey : doc.key ≠ "") (htitle : doc.title ≠ "")
    (hfresh : ∀ b ∈ s.books, b.olid ≠ lastSegment doc.key) :
    (processOpenLibraryResults s [doc] cy d).2.books
      = s.books
        ++ [mkBookFromDoc s.nextBookId (lastSegment doc.key) doc cy (d (lastSegment doc.key))] ∧
    ((processOpenLibraryResults s [doc] cy d).2.books.filter
        (fun b => b.olid == lastSegment doc.key)).length = 1 ∧
    processOpenLibraryResults (processOpenLibraryResults s [doc] cy d).2 [doc] cy d
      = ([mkBookFromDoc s.nextBookId (lastSegment doc.key) doc cy (d (lastSegment doc.key))],
         (processOpenLibraryResults s [doc] cy d).2) := by
  have hcond : (decide (doc.key = "") || decide (doc.title = "")) = false := by
    simp [hkey, htitle]
  have hfind : s.books.find? (fun b => b.olid == lastSegment doc.key) = none :=
    List.find?_eq_none.mpr (fun b hb => by simp [hfresh b hb])
  have holid :
      (mkBookFromDoc s.nextBookId (lastSegment doc.key) doc cy (d (lastSegment doc.key))).olid
        = lastSegment doc.key := rfl
  have h1 : processOpenLibraryResults s [doc] cy d
      = ([mkBookFromDoc s.nextBookId (lastSegment doc.key) doc cy (d (lastSegment doc.key))],
         { s with
            books := s.books
              ++ [mkBookFromDoc s.nextBookId (lastSegment doc.key) doc cy
                    (d (lastSegment doc.key))],
            nextBookId := s.nextBookId + 1 }) := by
    simp only [processOpenLibraryResults, List.foldl, processOneDoc, hcond, hfind,
      Bool.false_eq_true, if_false, List.nil_append]
  refine ⟨by rw [h1], ?_, ?_⟩
  · rw [h1]
    simp only [List.filter_append]
    rw [List.filter_eq_nil_iff.mpr (fun b hb => by simp [hfresh b hb])]
    simp [holid]
  · rw [h1]
    simp only [processOpenLibraryResults, List.foldl, processOneDoc, hcond,
      Bool.false_eq_true, if_false]
    rw [List.find?_append, hfind]
    simp [holid]

/-- C5 witness: a fresh foreign record processed against the singleton
store — the first pass inserts the row, the second pass returns it
unchanged. -/
theorem external_search_dedup_witness :
    freshDoc.key ≠ "" ∧ freshDoc.title ≠ "" ∧
      (∀ b ∈ blankStore.books, b.olid ≠ lastSegment freshDoc.key) ∧
      processOpenLibraryResults (processOpenLibraryResults blankStore [freshDoc] 2024
          (fun _ => none)).2 [freshDoc] 2024 (fun _ => none)
        = ([mkBookFromDoc blankStore.nextBookId (lastSegment freshDoc.key) freshDoc 2024 none],
           (processOpenLibraryResults blankStore [freshDoc] 2024 (fun _ => none)).2) :=
  ⟨by decide, by decide, by decide,
    (external_search_dedup blankStore freshDoc 2024 (fun _ => none)
      (by decide) (by decide) (by decide)).2.2⟩

/-! ## C9 — the provisional popularity score -/

theorem round_le_round {x y : ℚ} (h : x ≤ y) : round x ≤ round y := by
  rw [round_eq, round_eq]
  exact Int.floor_le_floor (by linarith)

theorem round1_bounds {q : ℚ} (h3 : 3 ≤ q) (h5 : q ≤ 5) :
    3 ≤ round1 q ∧ round1 q ≤ 5 := by
  have l30 : (30 : ℤ) ≤ round (q * 10) := by
    have := round_le_round (x := ((30 : ℤ) : ℚ)) (y := q * 10) (by push_cast; linarith)
    rwa [round_intCast] at this
  have l50 : round (q * 10) ≤ (50 : ℤ) := by
    have := round_le_round (x := q * 10) (y := ((50 : ℤ) : ℚ)) (by push_cast; linarith)
    rwa [round_intCast] at this
  unfold round1
  constructor
  · rw [le_div_iff₀ (by norm_num)]
    calc (3 : ℚ) * 10 = ((30 : ℤ) : ℚ) := by norm_num
    _ ≤ (round (q * 10) : ℚ) := by exact_mod_cast l30
  · rw [div_le_iff₀ (by norm_num)]
    calc ((round (q * 10) : ℤ) : ℚ) ≤ ((50 : ℤ) : ℚ) := by exact_mod_cast l50
    _ = 5 * 10 := by norm_num

theorem provisional_formula_bounds {a e : ℚ}
    (ha0 : 0 ≤ a) (ha1 : a ≤ 1) (he0 : 0 ≤ e) (he1 : e ≤ 1) :
    3 ≤ round1 (3 + (1 - a) * (3 / 2) + e * (1 / 2)) ∧
      round1 (3 + (1 - a) * (3 / 2) + e * (1 / 2)) ≤ 5 :=
  round1_bounds (by nlinarith) (by nlinarith)

/-- C9 counterexample: a foreign search record whose first publish year
lies a century in the future (first_publish_year 2126 against current
year 2026, edition_count 20) gets the provisional rating 8.0 — the
formula is applied verbatim, but the result is not in `[3.0, 5.0]`,
because no clamp exists and the age factor becomes negative. -/
theorem provisional_rating_range_counterexample :
    calculatedRatingSearch 2026 (some 2126) (some 20) = 8 ∧
    ¬ calculatedRatingSearch 2026 (some 2126) (some 20) ≤ 5 := by
  have h : calculatedRatingSearch 2026 (some 2126) (some 20) = 8 := by
    unfold calculatedRatingSearch orFalsy round1
    norm_num [min_def]
  exact ⟨h, by rw [h]; norm_num⟩

/-- C9 amended: for every foreign record whose (truthy) first publish
year does not lie after the current year and whose edition/revision
count is not negative, the provisional rating equals the source formula
`round((3 + (1 - ageFactor) * 1.5 + editionFactor * 0.5) * 10) / 10`
(with caps 20 for search listings and 30 for single-work fetches) and
lies in `[3.0, 5.0]`; without that restriction the score can leave the
interval. -/
theorem provisional_rating_range (cy : ℤ) (fpy ec py rev : Option ℤ)
    (hfpy : ∀ y ∈ fpy, y ≤ cy) (hec : ∀ n ∈ ec, 0 ≤ n)
    (hpy : ∀ y ∈ py, y ≤ cy) (hrev : ∀ n ∈ rev, 0 ≤ n) :
    (3 ≤ calculatedRatingSearch cy fpy ec ∧ calculatedRatingSearch cy fpy ec ≤ 5) ∧
    (3 ≤ calculatedRatingWork cy py rev ∧ calculatedRatingWork cy py rev ≤ 5) := by
  have hyears : ∀ (o : Option ℤ), (∀ y ∈ o, y ≤ cy) → 0 ≤ cy - orFalsy o cy := by
    intro o ho
    cases o with
    | none => simp [orFalsy]
    | some y =>
        by_cases hy : y = 0
        · simp [orFalsy, hy]
        · have := ho y (by simp)
          simp only [orFalsy, if_neg hy]
          omega
  have hageF : ∀ (o : Option ℤ), (∀ y ∈ o, y ≤ cy) →
      0 ≤ ((min (cy - orFalsy o cy) 50 : ℤ) : ℚ) / 50 ∧
        ((min (cy - orFalsy o cy) 50 : ℤ) : ℚ) / 50 ≤ 1 := by
    intro o ho
    have h0 : (0 : ℤ) ≤ min (cy - orFalsy o cy) 50 :=
      le_min (hyears o ho) (by norm_num)
    have h50 : min (cy - orFalsy o cy) 50 ≤ (50 : ℤ) := min_le_right _ _
    constructor
    · positivity
    · rw [div_le_one (by norm_num)]
      exact_mod_cast h50
  have hedF : ∀ (o : Option ℤ) (cap : ℤ), (∀ n ∈ o, 0 ≤ n) → 0 < cap →
      0 ≤ ((min (orFalsy o 1) cap : ℤ) : ℚ) / (cap : ℚ) ∧
        ((min (orFalsy o 1) cap : ℤ) : ℚ) / (cap : ℚ) ≤ 1 := by
    intro o cap ho hcap
    have hed : (0 : ℤ) ≤ orFalsy o 1 := by
      cases o with
      | none => simp [orFalsy]
      | some n =>
          by_cases hn : n = 0
          · simp [orFalsy, hn]
          · have := ho n (by simp)
            simp only [orFalsy, if_neg hn]
            omega
    have h0 : (0 : ℤ) ≤ min (orFalsy o 1) cap := le_min hed (le_of_lt hcap)
    have hc : min (orFalsy o 1) cap ≤ cap := min_le_right _ _
    have hcapQ : (0 : ℚ) < (cap : ℚ) := by exact_mod_cast hcap
    constructor
    · apply div_nonneg _ (le_of_lt hcapQ)
      exact_mod_cast h0
    · rw [div_le_one hcapQ]
      exact_mod_cast hc
  constructor
  · unfold calculatedRatingSearch
    exact provisional_formula_bounds (hageF fpy hfpy).1 (hageF fpy hfpy).2
      (hedF ec 20 hec (by norm_num)).1 (hedF ec 20 hec (by norm_num)).2
  · unfold calculatedRatingWork
    have hgetD : 0 ≤ cy - py.getD cy := by
      cases py with
      | none => simp
      | some y => have := hpy y (by simp); simp only [Option.getD]; omega
    have hage2 : 0 ≤ ((min (cy - py.getD cy) 50 : ℤ) : ℚ) / 50 ∧
        ((min (cy - py.getD cy) 50 : ℤ) : ℚ) / 50 ≤ 1 := by
      have h0 : (0 : ℤ) ≤ min (cy - py.getD cy) 50 := le_min hgetD (by norm_num)
      have h50 : min (cy - py.getD cy) 50 ≤ (50 : ℤ) := min_le_right _ _
      constructor
      · positivity
      · rw [div_le_one (by norm_num)]
        exact_mod_cast h50
    exact provisional_formula_bounds hage2.1 hage2.2
      (hedF rev 30 hrev (by norm_num)).1 (hedF rev 30 hrev (by norm_num)).2

/-- C9 witness: a 1989 work with 5 editions and revision 3 in 2024 —
both provisional scores lie in `[3.0, 5.0]`. -/
theorem provisional_rating_range_witness :
    (∀ y ∈ (some 1989 : Option ℤ), y ≤ 2024) ∧ (∀ n ∈ (some 5 : Option ℤ), 0 ≤ n) ∧
    (∀ y ∈ (some 1989 : Option ℤ), y ≤ 2024) ∧ (∀ n ∈ (some 3 : Option ℤ), 0 ≤ n) ∧
    ((3 ≤ calculatedRatingSearch 2024 (some 1989) (some 5) ∧
        calculatedRatingSearch 2024 (some 1989) (some 5) ≤ 5) ∧
      (3 ≤ calculatedRatingWork 2024 (some 1989) (some 3) ∧
        calculatedRatingWork 2024 (some 1989) (some 3) ≤ 5)) :=
  ⟨by decide, by decide, by decide, by decide,
    provisional_rating_range 2024 (some 1989) (some 5) (some 1989) (some 3)
      (by decide) (by decide) (by decide) (by decide)⟩

/-! ## C1 — the database aggregator rounds to the nearest integer, not to
one decimal -/

/-- C1 (failing evaluation): users 1 and 2 rate the same book 4 and 5
through `DatabaseStorage.createOrUpdateUserRating`.  The claim (and the
spec invariant) demand `rating = round(mean, 1) = 4.5` with
`ratingCount = 2`; the code stores `Math.round(4.5) = 5` because
`DatabaseStorage.updateBookRating` rounds the average to the nearest
integer.  (`MemStorage.updateBookRating` rounds to one decimal, which
the spec's design notes single out as the coherent behaviour.) -/
theorem db_rating_integer_rounding_bug :
    afterSecondRating.books.map (fun b => (b.rating, b.ratingCount)) = [(5, 2)] ∧
    round1 (((4 : ℚ) + 5) / 2) = 9 / 2 ∧
    (5 : ℚ) ≠ 9 / 2 := by
  refine ⟨?_, ?_, by norm_num⟩
  · simp only [afterSecondRating, afterFirstRating, blankStore, blankBook,
      dbCreateOrUpdateUserRating, dbGetUserRating, dbUpdateBookRating]
    norm_num
    rw [round_eq, show (9 : ℚ) / 2 + 1 / 2 = ((5 : ℤ) : ℚ) by norm_num, Int.floor_intCast]
    norm_num
  · unfold round1
    rw [show (((4 : ℚ) + 5) / 2) * 10 = ((45 : ℤ) : ℚ) by norm_num]
    rw [round_intCast]
    norm_num

/-! ## C2 — one rating row per `(userId, bookId)` pair -/

/-- C2 counterexample: user 1 rated the book 4 at time 0 and re-rates it
5 at time 7 through the database-backed aggregator.  The single row's
value is overwritten, but its timestamp still reads 0 — the update sets
only the `rating` column, so "overwrites the existing row's value and
timestamp" fails for the `DatabaseStorage` variant. -/
theorem db_rating_timestamp_counterexample :
    afterReRating.userRatings = [⟨1, 1, 1, 5, 0⟩] ∧ (0 : Nat) ≠ 7 := by
  constructor
  · simp only [afterReRating, afterFirstRating, blankStore, blankBook,
      dbCreateOrUpdateUserRating, dbGetUserRating, dbUpdateBookRating]
    norm_num
  · decide

theorem dbUpdateBookRating_userRatings (s : StoreState) (bookId : Nat) :
    (dbUpdateBookRating s bookId).userRatings = s.userRatings := by
  simp only [dbUpdateBookRating]
  split <;> rfl

theorem dbUpdateBookRating_nextRatingId (s : StoreState) (bookId : Nat) :
    (dbUpdateBookRating s bookId).nextRatingId = s.nextRatingId := by
  simp only [dbUpdateBookRating]
  split <;> rfl

theorem memUpdateBookRating_userRatings (s : StoreState) (bookId : Nat) :
    (memUpdateBookRating s bookId).userRatings = s.userRatings := by
  simp only [memUpdateBookRating]
  split
  · rfl
  · split <;> rfl

theorem memUpdateBookRating_nextRatingId (s : StoreState) (bookId : Nat) :
    (memUpdateBookRating s bookId).nextRatingId = s.nextRatingId := by
  simp only [memUpdateBookRating]
  split
  · rfl
  · split <;> rfl

theorem dbRate_userRatings_update (s : StoreState) (u b : Nat) (v : ℤ) (t : Nat)
    (ex : UserRating) (hex : dbGetUserRating s u b = some ex) :
    (dbCreateOrUpdateUserRating s u b v t).2.userRatings
      = s.userRatings.map (fun r => if r.id == ex.id then { ex with rating := v } else r) := by
  unfold dbCreateOrUpdateUserRating
  rw [hex]
  simp [dbUpdateBookRating_userRatings]

theorem dbRate_userRatings_insert (s : StoreState) (u b : Nat) (v : ℤ) (t : Nat)
    (hex : dbGetUserRating s u b = none) :
    (dbCreateOrUpdateUserRating s u b v t).2.userRatings
      = s.userRatings ++ [⟨s.nextRatingId, u, b, v, t⟩] := by
  unfold dbCreateOrUpdateUserRating
  rw [hex]
  simp [dbUpdateBookRating_userRatings]

theorem memRate_userRatings_update (s : StoreState) (u b : Nat) (v : ℤ) (t : Nat)
    (ex : UserRating) (hex : memGetUserRating s u b = some ex) :
    (memCreateOrUpdateUserRating s u b v t).2.userRatings
      = s.userRatings.map
          (fun r => if r.id == ex.id then { ex with rating := v, ratedAt := t } else r) := by
  unfold memCreateOrUpdateUserRating
  rw [hex]
  simp [memUpdateBookRating_userRatings]

theorem memRate_userRatings_insert (s : StoreState) (u b : Nat) (v : ℤ) (t : Nat)
    (hex : memGetUserRating s u b = none) :
    (memCreateOrUpdateUserRating s u b v t).2.userRatings
      = s.userRatings ++ [⟨s.nextRatingId, u, b, v, t⟩] := by
  unfold memCreateOrUpdateUserRating
  rw [hex]
  simp [memUpdateBookRating_userRatings]

theorem pairUnique_rowsForPair_le_one {rs : List UserRating} (h : pairUnique rs)
    (u b : Nat) : (rowsForPair rs u b).length ≤ 1 := by
  induction rs with
  | nil => simp [rowsForPair]
  | cons r rest ih =>
      rw [pairUnique, List.pairwise_cons] at h
      unfold rowsForPair at ih ⊢
      rw [List.filter_cons]
      split
      · rename_i hr
        simp only [Bool.and_eq_true, beq_iff_eq] at hr
        have hrest : rest.filter (fun r => r.userId == u && r.bookId == b) = [] := by
          apply List.filter_eq_nil_iff.mpr
          intro a ha
          have := h.1 a ha
          simp only [Bool.and_eq_true, beq_iff_eq]
          rintro ⟨hu, hb⟩
          exact this ⟨by rw [hr.1, hu], by rw [hr.2, hb]⟩
        simp [hrest]
      · exact ih h.2
theorem eq_singleton_of_mem_of_length_le_one {l : List α} {x : α}
    (hx : x ∈ l) (h : l.length ≤ 1) : l = [x] := by
  cases l with
  | nil => simp at hx
  | cons a t =>
      cases t with
      | nil => simp at hx; rw [hx]
      | cons c t2 => simp at h

theorem eq_of_ratingId_eq {rs : List UserRating} (hids : (rs.map (·.id)).Nodup)
    {r ex : UserRating} (hr : r ∈ rs) (hex : ex ∈ rs) (h : r.id = ex.id) : r = ex :=
  List.inj_on_of_nodup_map hids hr hex h

theorem updateInPlace_ids (rs : List UserRating) (ex upd : UserRating)
    (hid : upd.id = ex.id) :
    ((rs.map (fun r => if r.id == ex.id then upd else r)).map (·.id)) = rs.map (·.id) := by
  rw [List.map_map]
  apply List.map_congr_left
  intro r _
  by_cases h : (r.id == ex.id) = true
  · simp only [Function.comp, h, if_true, hid]
    exact ((beq_iff_eq).mp h).symm
  · simp [Function.comp, h]

theorem updateInPlace_pair_preserved {rs : List UserRating}
    (hids : (rs.map (·.id)).Nodup) {ex : UserRating} (hexmem : ex ∈ rs)
    (upd : UserRating) (hu : upd.userId = ex.userId) (hb : upd.bookId = ex.bookId)
    {r : UserRating} (hr : r ∈ rs) :
    ((fun r => if r.id == ex.id then upd else r) r).userId = r.userId ∧
    ((fun r => if r.id == ex.id then upd else r) r).bookId = r.bookId := by
  by_cases h : (r.id == ex.id) = true
  · have hre : r = ex := eq_of_ratingId_eq hids hr hexmem (beq_iff_eq.mp h)
    subst hre
    simp [h, hu, hb]
  · simp [h]

theorem updateInPlace_pairUnique {rs : List UserRating} (hpair : pairUnique rs)
    (hids : (rs.map (·.id)).Nodup) {ex : UserRating} (hexmem : ex ∈ rs)
    (upd : UserRating) (hu : upd.userId = ex.userId) (hb : upd.bookId = ex.bookId) :
    pairUnique (rs.map (fun r => if r.id == ex.id then upd else r)) := by
  rw [pairUnique, List.pairwise_map]
  apply hpair.imp_of_mem
  intro a c ha hc hR
  have hpa := updateInPlace_pair_preserved hids hexmem upd hu hb ha
  have hpc := updateInPlace_pair_preserved hids hexmem upd hu hb hc
  rw [hpa.1, hpa.2, hpc.1, hpc.2]
  exact hR

theorem dbRate_nextRatingId_update (s : StoreState) (u b : Nat) (v : ℤ) (t : Nat)
    (ex : UserRating) (hex : dbGetUserRating s u b = some ex) :
    (dbCreateOrUpdateUserRating s u b v t).2.nextRatingId = s.nextRatingId := by
  unfold dbCreateOrUpdateUserRating
  rw [hex]
  simp [dbUpdateBookRating_nextRatingId]

theorem dbRate_nextRatingId_insert (s : StoreState) (u b : Nat) (v : ℤ) (t : Nat)
    (hex : dbGetUserRating s u b = none) :
    (dbCreateOrUpdateUserRating s u b v t).2.nextRatingId = s.nextRatingId + 1 := by
  unfold dbCreateOrUpdateUserRating
  rw [hex]
  simp [dbUpdateBookRating_nextRatingId]

theorem memRate_nextRatingId_update (s : StoreState) (u b : Nat) (v : ℤ) (t : Nat)
    (ex : UserRating) (hex : memGetUserRating s u b = some ex) :
    (memCreateOrUpdateUserRating s u b v t).2.nextRatingId = s.nextRatingId := by
  unfold memCreateOrUpdateUserRating
  rw [hex]
  simp [memUpdateBookRating_nextRatingId]

theorem memRate_nextRatingId_insert (s : StoreState) (u b : Nat) (v : ℤ) (t : Nat)
    (hex : memGetUserRating s u b = none) :
    (memCreateOrUpdateUserRating s u b v t).2.nextRatingId = s.nextRatingId + 1 := by
  unfold memCreateOrUpdateUserRating
  rw [hex]
  simp [memUpdateBookRating_nextRatingId]

theorem dbRate_ratingInv (s : StoreState) (u b : Nat) (v : ℤ) (t : Nat)
    (inv : RatingInv s) : RatingInv (dbCreateOrUpdateUserRating s u b v t).2 := by
  cases hex : dbGetUserRating s u b with
  | some ex =>
      have hmem : ex ∈ s.userRatings := List.mem_of_find?_eq_some hex
      have hrs := dbRate_userRatings_update s u b v t ex hex
      have hnext := dbRate_nextRatingId_update s u b v t ex hex
      refine ⟨?_, ?_, ?_⟩
      · rw [hrs]
        exact updateInPlace_pairUnique inv.pairs inv.ids hmem _ rfl rfl
      · rw [hrs, updateInPlace_ids s.userRatings ex { ex with rating := v } rfl]
        exact inv.ids
      · intro r hr
        rw [hnext]
        rw [hrs] at hr
        obtain ⟨r0, hr0, rfl⟩ := List.mem_map.mp hr
        by_cases h : (r0.id == ex.id) = true
        · simp only [h, if_true]
          exact inv.fresh ex hmem
        · simp only [h, if_false]
          exact inv.fresh r0 hr0
  | none =>
      have hrs := dbRate_userRatings_insert s u b v t hex
      have hnext := dbRate_nextRatingId_insert s u b v t hex
      have hall := List.find?_eq_none.mp hex
      refine ⟨?_, ?_, ?_⟩
      · rw [hrs, pairUnique, List.pairwise_append]
        refine ⟨inv.pairs, by simp, ?_⟩
        intro a ha b' hb'
        simp only [List.mem_singleton] at hb'
        subst hb'
        rintro ⟨hu, hb2⟩
        have := hall a ha
        simp [hu, hb2] at this
      · rw [hrs, List.map_append, List.nodup_append]
        refine ⟨inv.ids, by simp, ?_⟩
        intro x hx hx2
        simp only [List.map_cons, List.map_nil, List.mem_singleton] at hx2
        obtain ⟨r0, hr0, hid⟩ := List.mem_map.mp hx
        have := inv.fresh r0 hr0
        omega
      · intro r hr
        rw [hnext]
        rw [hrs] at hr
        rcases List.mem_append.mp hr with h | h
        · have := inv.fresh r h
          omega
        · simp only [List.mem_singleton] at h
          subst h
          simp

theorem memRate_ratingInv (s : StoreState) (u b : Nat) (v : ℤ) (t : Nat)
    (inv : RatingInv s) : RatingInv (memCreateOrUpdateUserRating s u b v t).2 := by
  cases hex : memGetUserRating s u b with
  | some ex =>
      have hmem : ex ∈ s.userRatings := List.mem_of_find?_eq_some hex
      have hrs := memRate_userRatings_update s u b v t ex hex
      have hnext := memRate_nextRatingId_update s u b v t ex hex
      refine ⟨?_, ?_, ?_⟩
      · rw [hrs]
        exact updateInPlace_pairUnique inv.pairs inv.ids hmem _ rfl rfl
      · rw [hrs, updateInPlace_ids s.userRatings ex { ex with rating := v, ratedAt := t } rfl]
        exact inv.ids
      · intro r hr
        rw [hnext]
        rw [hrs] at hr
        obtain ⟨r0, hr0, rfl⟩ := List.mem_map.mp hr
        by_cases h : (r0.id == ex.id) = true
        · simp only [h, if_true]
          exact inv.fresh ex hmem
        · simp only [h, if_false]
          exact inv.fresh r0 hr0
  | none =>
      have hrs := memRate_userRatings_insert s u b v t hex
      have hnext := memRate_nextRatingId_insert s u b v t hex
      have hall := List.find?_eq_none.mp hex
      refine ⟨?_, ?_, ?_⟩
      · rw [hrs, pairUnique, List.pairwise_append]
        refine ⟨inv.pairs, by simp, ?_⟩
        intro a ha b' hb'
        simp only [List.mem_singleton] at hb'
        subst hb'
        rintro ⟨hu, hb2⟩
        have := hall a ha
        simp [hu, hb2] at this
      · rw [hrs, List.map_append, List.nodup_append]
        refine ⟨inv.ids, by simp, ?_⟩
        intro x hx hx2
        simp only [List.map_cons, List.map_nil, List.mem_singleton] at hx2
        obtain ⟨r0, hr0, hid⟩ := List.mem_map.mp hx
        have := inv.fresh r0 hr0
        omega
      · intro r hr
        rw [hnext]
        rw [hrs] at hr
        rcases List.mem_append.mp hr with h | h
        · have := inv.fresh r h
          omega
        · simp only [List.mem_singleton] at h
          subst h
          simp

theorem rowsForPair_eq_singleton {rs : List UserRating} (hpair : pairUnique rs)
    {u b : Nat} {ex : UserRating} (hmem : ex ∈ rs) (hu : ex.userId = u)
    (hb : ex.bookId = b) : rowsForPair rs u b = [ex] := by
  apply eq_singleton_of_mem_of_length_le_one
  · rw [rowsForPair, List.mem_filter]
    exact ⟨hmem, by simp [hu, hb]⟩
  · exact pairUnique_rowsForPair_le_one hpair u b

theorem rowsForPair_update {rs : List UserRating} (hpair : pairUnique rs)
    (hids : (rs.map (·.id)).Nodup) {u b : Nat} {ex : UserRating} (hmem : ex ∈ rs)
    (hu : ex.userId = u) (hb : ex.bookId = b) (upd : UserRating)
    (huu : upd.userId = ex.userId) (hbb : upd.bookId = ex.bookId) :
    rowsForPair (rs.map (fun r => if r.id == ex.id then upd else r)) u b = [upd] := by
  rw [rowsForPair, List.filter_map]
  have hcongr : rs.filter
      ((fun r => r.userId == u && r.bookId == b) ∘ (fun r => if r.id == ex.id then upd else r))
      = rs.filter (fun r => r.userId == u && r.bookId == b) := by
    apply List.filter_congr
    intro r hr
    have hp := updateInPlace_pair_preserved hids hmem upd huu hbb hr
    simp only [Function.comp]
    rw [hp.1, hp.2]
  rw [hcongr]
  rw [show rs.filter (fun r => r.userId == u && r.bookId == b) = rowsForPair rs u b from rfl]
  rw [rowsForPair_eq_singleton hpair hmem hu hb]
  simp

theorem rowsForBook_update_length {rs : List UserRating}
    (hids : (rs.map (·.id)).Nodup) {ex : UserRating} (hmem : ex ∈ rs)
    (upd : UserRating) (huu : upd.userId = ex.userId) (hbb : upd.bookId = ex.bookId)
    (b' : Nat) :
    (rowsForBook (rs.map (fun r => if r.id == ex.id then upd else r)) b').length
      = (rowsForBook rs b').length := by
  rw [rowsForBook, List.filter_map]
  have hcongr : rs.filter
      ((fun r => r.bookId == b') ∘ (fun r => if r.id == ex.id then upd else r))
      = rs.filter (fun r => r.bookId == b') := by
    apply List.filter_congr
    intro r hr
    have hp := updateInPlace_pair_preserved hids hmem upd huu hbb hr
    simp only [Function.comp]
    rw [hp.2]
  rw [hcongr, List.length_map, rowsForBook]

theorem rowsForPair_append_new {rs : List UserRating} {u b : Nat}
    (hnone : rs.find? (fun r => r.userId == u && r.bookId == b) = none)
    (new : UserRating) (hu : new.userId = u) (hb : new.bookId = b) :
    rowsForPair (rs ++ [new]) u b = [new] := by
  rw [rowsForPair, List.filter_append]
  rw [List.filter_eq_nil_iff.mpr (fun a ha => by simpa using List.find?_eq_none.mp hnone a ha)]
  simp [hu, hb]

theorem rowsForBook_append_length (rs : List UserRating) {b : Nat}
    (new : UserRating) (hb : new.bookId = b) :
    (rowsForBook (rs ++ [new]) b).length = (rowsForBook rs b).length + 1 := by
  rw [rowsForBook, List.filter_append, rowsForBook]
  simp [hb]

theorem dbUpdateBookRating_books_count (s : StoreState) (b : Nat)
    (hne : ¬ (s.userRatings.filter (fun r => r.bookId == b)).length = 0) :
    ∀ bk ∈ (dbUpdateBookRating s b).books, bk.id = b →
      bk.ratingCount = ((s.userRatings.filter (fun r => r.bookId == b)).length : ℤ) := by
  intro bk hbk hid
  simp only [dbUpdateBookRating] at hbk
  rw [if_neg hne] at hbk
  obtain ⟨b0, hb0, rfl⟩ := List.mem_map.mp hbk
  by_cases h : (b0.id == b) = true
  · simp [h]
  · simp only [h, if_false] at hid ⊢
    exact absurd (beq_iff_eq.mpr hid) (by simpa using h)

theorem rowsForBook_mem_ne_zero {rs : List UserRating} {b : Nat} {r : UserRating}
    (hmem : r ∈ rs) (hb : r.bookId = b) :
    ¬ (rs.filter (fun r => r.bookId == b)).length = 0 := by
  have hmf : r ∈ rs.filter (fun r => r.bookId == b) := by
    rw [List.mem_filter]
    exact ⟨hmem, by simp [hb]⟩
  intro hlen
  rw [List.length_eq_zero] at hlen
  rw [hlen] at hmf
  simp at hmf

theorem dbRate_books_count (s : StoreState) (u b : Nat) (v : ℤ) (t : Nat) :
    ∀ bk ∈ (dbCreateOrUpdateUserRating s u b v t).2.books, bk.id = b →
      bk.ratingCount
        = ((rowsForBook (dbCreateOrUpdateUserRating s u b v t).2.userRatings b).length : ℤ) := by
  cases hex : dbGetUserRating s u b with
  | some ex =>
      have hmem : ex ∈ s.userRatings := List.mem_of_find?_eq_some hex
      have hp : ((fun r : UserRating => r.userId == u && r.bookId == b) ex) = true :=
        List.find?_some (p := fun r : UserRating => r.userId == u && r.bookId == b) hex
      have hb : ex.bookId = b := by
        simp only [Bool.and_eq_true, beq_iff_eq] at hp
        exact hp.2
      have hrs := dbRate_userRatings_update s u b v t ex hex
      set s1 : StoreState :=
        { s with userRatings :=
            s.userRatings.map (fun r => if r.id == ex.id then { ex with rating := v } else r) }
        with hs1
      have hmem2 : ({ ex with rating := v } : UserRating) ∈ s1.userRatings := by
        rw [hs1]
        have := List.mem_map_of_mem
          (fun r => if r.id == ex.id then { ex with rating := v } else r) hmem
        simpa using this
      have hne : ¬ (s1.userRatings.filter (fun r => r.bookId == b)).length = 0 :=
        rowsForBook_mem_ne_zero hmem2 hb
      have hshape : (dbCreateOrUpdateUserRating s u b v t).2 = dbUpdateBookRating s1 b := by
        unfold dbCreateOrUpdateUserRating
        rw [hex]
      intro bk hbk hid
      rw [hshape] at hbk
      have hmain := dbUpdateBookRating_books_count s1 b hne bk hbk hid
      rw [rowsForBook, hshape, dbUpdateBookRating_userRatings]
      exact hmain
  | none =>
      set nr : UserRating := ⟨s.nextRatingId, u, b, v, t⟩ with hnr
      set s1 : StoreState :=
        { s with userRatings := s.userRatings ++ [nr], nextRatingId := s.nextRatingId + 1 }
        with hs1
      have hmem2 : nr ∈ s1.userRatings := by
        rw [hs1]
        simp
      have hne : ¬ (s1.userRatings.filter (fun r => r.bookId == b)).length = 0 :=
        rowsForBook_mem_ne_zero hmem2 (by rw [hnr])
      have hshape : (dbCreateOrUpdateUserRating s u b v t).2 = dbUpdateBookRating s1 b := by
        unfold dbCreateOrUpdateUserRating
        rw [hex]
      intro bk hbk hid
      rw [hshape] at hbk
      have hmain := dbUpdateBookRating_books_count s1 b hne bk hbk hid
      rw [rowsForBook, hshape, dbUpdateBookRating_userRatings]
      exact hmain

theorem dbRateSeq_ratingInv_rows (u b : Nat) (calls : List (ℤ × Nat)) :
    ∀ s : StoreState, RatingInv s →
      RatingInv (dbRateSeq s u b calls) ∧
      (rowsForBook (dbRateSeq s u b calls).userRatings b).length
        ≤ (rowsForBook s.userRatings b).length
          + (if (rowsForPair s.userRatings u b).length = 0 then 1 else 0) := by
  induction calls with
  | nil =>
      intro s inv
      exact ⟨inv, Nat.le_add_right _ _⟩
  | cons c rest ih =>
      intro s inv
      obtain ⟨v, t⟩ := c
      have inv' := dbRate_ratingInv s u b v t inv
      have hseq : dbRateSeq s u b ((v, t) :: rest)
          = dbRateSeq (dbCreateOrUpdateUserRating s u b v t).2 u b rest := rfl
      obtain ⟨ihinv, ihle⟩ := ih (dbCreateOrUpdateUserRating s u b v t).2 inv'
      rw [hseq]
      refine ⟨ihinv, ?_⟩
      cases hex : dbGetUserRating s u b with
      | some ex =>
          have hmem : ex ∈ s.userRatings := List.mem_of_find?_eq_some hex
          have hp : ((fun r : UserRating => r.userId == u && r.bookId == b) ex) = true :=
            List.find?_some (p := fun r : UserRating => r.userId == u && r.bookId == b) hex
          have hub : ex.userId = u ∧ ex.bookId = b := by
            simpa [Bool.and_eq_true, beq_iff_eq] using hp
          have hrs := dbRate_userRatings_update s u b v t ex hex
          have hrows : (rowsForBook (dbCreateOrUpdateUserRating s u b v t).2.userRatings b).length
              = (rowsForBook s.userRatings b).length := by
            rw [hrs]
            exact rowsForBook_update_length inv.ids hmem { ex with rating := v } rfl rfl b
          have hpair : rowsForPair (dbCreateOrUpdateUserRating s u b v t).2.userRatings u b
              = [{ ex with rating := v }] := by
            rw [hrs]
            exact rowsForPair_update inv.pairs inv.ids hmem hub.1 hub.2 _ rfl rfl
          rw [hrows, hpair] at ihle
          simp at ihle
          omega
      | none =>
          have hrs := dbRate_userRatings_insert s u b v t hex
          have hrows : (rowsForBook (dbCreateOrUpdateUserRating s u b v t).2.userRatings b).length
              = (rowsForBook s.userRatings b).length + 1 := by
            rw [hrs]
            exact rowsForBook_append_length s.userRatings _ rfl
          have hpair : rowsForPair (dbCreateOrUpdateUserRating s u b v t).2.userRatings u b
              = [⟨s.nextRatingId, u, b, v, t⟩] := by
            rw [hrs]
            exact rowsForPair_append_new hex _ rfl rfl
          have hpair0 : (rowsForPair s.userRatings u b).length = 0 := by
            rw [rowsForPair, List.filter_eq_nil_iff.mpr
              (fun a ha => by simpa using List.find?_eq_none.mp hex a ha)]
            rfl
          rw [hrows, hpair] at ihle
          simp at ihle
          rw [hpair0]
          simp
          omega

theorem dbRateSeq_books_count (u b : Nat) (calls : List (ℤ × Nat)) :
    calls ≠ [] → ∀ s : StoreState,
      ∀ bk ∈ (dbRateSeq s u b calls).books, bk.id = b →
        bk.ratingCount = ((rowsForBook (dbRateSeq s u b calls).userRatings b).length : ℤ) := by
  induction calls with
  | nil => exact fun h => absurd rfl h
  | cons c rest ih =>
      intro _ s
      obtain ⟨v, t⟩ := c
      cases hr : rest with
      | nil =>
          have hseq : dbRateSeq s u b [(v, t)] = (dbCreateOrUpdateUserRating s u b v t).2 := rfl
          rw [hseq]
          exact dbRate_books_count s u b v t
      | cons c2 rest2 =>
          have hseq : dbRateSeq s u b ((v, t) :: rest)
              = dbRateSeq (dbCreateOrUpdateUserRating s u b v t).2 u b rest := rfl
          rw [← hr, hseq]
          exact ih (by rw [hr]; exact List.cons_ne_nil c2 rest2)
            (dbCreateOrUpdateUserRating s u b v t).2

/-- C2 amended: the rating store keeps at most one `UserRating` row per
`(userId, bookId)` pair, and a second `rate` call by the same user for
the same book overwrites the existing row's value in place — the
in-memory variant also refreshes its timestamp, while the
database-backed variant leaves `ratedAt` unchanged — inserting no second
row; both variants preserve the uniqueness invariant, and any sequence
of database-backed rate calls by one user for one book increases that
book's `ratingCount` by at most 1 in total. -/
theorem rating_upsert_single_row (s : StoreState) (userId bookId : Nat)
    (value : ℤ) (now : Nat) (inv : RatingInv s) :
    (rowsForPair s.userRatings userId bookId).length ≤ 1 ∧
    RatingInv (dbCreateOrUpdateUserRating s userId bookId value now).2 ∧
    RatingInv (memCreateOrUpdateUserRating s userId bookId value now).2 ∧
    (∀ ex, dbGetUserRating s userId bookId = some ex →
      (dbCreateOrUpdateUserRating s userId bookId value now).2.userRatings.length
          = s.userRatings.length ∧
      rowsForPair (dbCreateOrUpdateUserRating s userId bookId value now).2.userRatings
          userId bookId = [{ ex with rating := value }] ∧
      (memCreateOrUpdateUserRating s userId bookId value now).2.userRatings.length
          = s.userRatings.length ∧
      rowsForPair (memCreateOrUpdateUserRating s userId bookId value now).2.userRatings
          userId bookId = [{ ex with rating := value, ratedAt := now }]) ∧
    (∀ calls : List (ℤ × Nat),
      (∀ bk ∈ s.books, bk.id = bookId →
        bk.ratingCount = ((rowsForBook s.userRatings bookId).length : ℤ)) →
      ∀ bk ∈ (dbRateSeq s userId bookId calls).books, bk.id = bookId →
        bk.ratingCount ≤ ((rowsForBook s.userRatings bookId).length : ℤ) + 1) := by
  refine ⟨pairUnique_rowsForPair_le_one inv.pairs _ _,
    dbRate_ratingInv s userId bookId value now inv,
    memRate_ratingInv s userId bookId value now inv, ?_, ?_⟩
  · intro ex hex
    have hmem : ex ∈ s.userRatings := List.mem_of_find?_eq_some hex
    have hp : ((fun r : UserRating => r.userId == userId && r.bookId == bookId) ex) = true :=
      List.find?_some (p := fun r : UserRating => r.userId == userId && r.bookId == bookId) hex
    have hub : ex.userId = userId ∧ ex.bookId = bookId := by
      simpa [Bool.and_eq_true, beq_iff_eq] using hp
    have hexm : memGetUserRating s userId bookId = some ex := hex
    have hrsd := dbRate_userRatings_update s userId bookId value now ex hex
    have hrsm := memRate_userRatings_update s userId bookId value now ex hexm
    refine ⟨by rw [hrsd, List.length_map], ?_, by rw [hrsm, List.length_map], ?_⟩
    · rw [hrsd]
      exact rowsForPair_update inv.pairs inv.ids hmem hub.1 hub.2 _ rfl rfl
    · rw [hrsm]
      exact rowsForPair_update inv.pairs inv.ids hmem hub.1 hub.2 _ rfl rfl
  · intro calls hagg bk hbk hid
    cases calls with
    | nil =>
        rw [hagg bk hbk hid]
        omega
    | cons c rest =>
        have hcount := dbRateSeq_books_count userId bookId (c :: rest)
          (List.cons_ne_nil c rest) s bk hbk hid
        have hle := (dbRateSeq_ratingInv_rows userId bookId (c :: rest) s inv).2
        rw [hcount]
        have hlen : (rowsForBook (dbRateSeq s userId bookId (c :: rest)).userRatings
            bookId).length ≤ (rowsForBook s.userRatings bookId).length + 1 := by
          by_cases hc : (rowsForPair s.userRatings userId bookId).length = 0 <;>
            simp [hc] at hle <;> omega
        exact_mod_cast hlen

/-- C2 witness: user 1 re-rates the already-rated book with 4 at time 9.
Both variants end with the single row holding value 4; the
database-backed row keeps timestamp 0 while the in-memory row reads 9. -/
theorem rating_upsert_single_row_witness :
    (rowsForPair ratedStore.userRatings 1 1).length ≤ 1 ∧
    rowsForPair (dbCreateOrUpdateUserRating ratedStore 1 1 4 9).2.userRatings 1 1
      = [⟨1, 1, 1, 4, 0⟩] ∧
    rowsForPair (memCreateOrUpdateUserRating ratedStore 1 1 4 9).2.userRatings 1 1
      = [⟨1, 1, 1, 4, 9⟩] := by
  have inv : RatingInv ratedStore := by
    refine ⟨?_, ?_, ?_⟩ <;> simp [pairUnique, ratedStore]
  have h := rating_upsert_single_row ratedStore 1 1 4 9 inv
  have hex : dbGetUserRating ratedStore 1 1 = some ⟨1, 1, 1, 5, 0⟩ := by decide
  exact ⟨h.1, (h.2.2.2.1 _ hex).2.1, (h.2.2.2.1 _ hex).2.2.2⟩

/-! ## C10 — every list read returns at most `limit` items -/

theorem dbGetBooks_length_le (s : StoreState) (limit offset : Nat) :
    (dbGetBooks s limit offset).length ≤ limit := by
  unfold dbGetBooks
  rw [List.length_take]
  omega

theorem dbGetBooksByCategory_length_le (s : StoreState) (category : String)
    (limit offset : Nat) (ext : Option (List OLDoc)) (cy : ℤ) (d : String → Option String) :
    (dbGetBooksByCategory s category limit offset ext cy d).1.length ≤ limit := by
  simp only [dbGetBooksByCategory]
  repeat' split
  all_goals simp only [List.length_append, List.length_take] at *
  all_goals omega

theorem dbSearchBooks_length_le (s : StoreState) (query : String)
    (limit offset : Nat) (ext : Option (List OLDoc)) (cy : ℤ) (d : String → Option String) :
    (dbSearchBooks s query limit offset ext cy d).1.length ≤ limit := by
  simp only [dbSearchBooks]
  split
  · rw [List.length_take]
    omega
  · split
    · rw [List.length_take]
      omega
    · rw [List.length_take]
      omega

theorem dbGetTrendingBooks_length_le (s : StoreState) (limit : Nat)
    (ext : Option (List OLDoc)) (cy : ℤ) (d : String → Option String) :
    (dbGetTrendingBooks s limit ext cy d).1.length ≤ limit := by
  simp only [dbGetTrendingBooks]
  split
  · rw [List.length_take]
    omega
  · split
    · rw [List.length_take]
      omega
    · rw [List.length_take]
      omega

theorem dbGetMostPurchasedBooks_length_le (s : StoreState) (limit : Nat)
    (ext : Option (List OLDoc)) (cy : ℤ) (d : String → Option String) :
    (dbGetMostPurchasedBooks s limit ext cy d).1.length ≤ limit := by
  simp only [dbGetMostPurchasedBooks]
  split
  · rw [List.length_take]
    omega
  · split
    · rw [List.length_take]
      omega
    · rw [List.length_take]
      omega

theorem preferenceRecs_length_le (s : StoreState) (userId limit : Nat) :
    (preferenceRecs s userId limit).length ≤ limit := by
  unfold preferenceRecs
  rw [List.length_take]
  omega

theorem dbGetRecommendedBooks_length_le (s : StoreState) (userId limit : Nat)
    (e1 e2 : Option (List OLDoc)) (cy : ℤ) (d : String → Option String) :
    (dbGetRecommendedBooks s userId limit e1 e2 cy d).1.length ≤ limit := by
  simp only [dbGetRecommendedBooks]
  repeat' split
  all_goals first
    | apply dbGetTrendingBooks_length_le
    | (have hpr := preferenceRecs_length_le s userId limit
       simp only [List.length_append, List.length_take] at *
       omega)

theorem memGetTrendingBooks_length_le (s : StoreState) (limit : Nat) :
    (memGetTrendingBooks s limit).length ≤ limit := by
  unfold memGetTrendingBooks
  rw [List.length_take]
  omega

theorem memGetRecommendedBooks_length_le (s : StoreState) (userId limit : Nat) :
    (memGetRecommendedBooks s userId limit).length ≤ limit := by
  simp only [memGetRecommendedBooks]
  split
  · exact memGetTrendingBooks_length_le s limit
  · split
    · exact memGetTrendingBooks_length_le s limit
    · rw [List.length_take]
      omega

/-- C10: every list-returning read path — plain listing, search,
category, trending, most-purchased and recommendations, in both the
database-backed and in-memory variants — returns at most `limit` items,
for every limit and regardless of external merge, deduplication, or
trending top-up. -/
theorem list_reads_respect_limit (s : StoreState) (userId limit offset : Nat)
    (category query : String) (e1 e2 e3 e4 e5 e6 : Option (List OLDoc)) (cy : ℤ)
    (d : String → Option String) :
    (dbGetBooks s limit offset).length ≤ limit ∧
    (dbGetBooksByCategory s category limit offset e1 cy d).1.length ≤ limit ∧
    (dbSearchBooks s query limit offset e2 cy d).1.length ≤ limit ∧
    (dbGetTrendingBooks s limit e3 cy d).1.length ≤ limit ∧
    (dbGetMostPurchasedBooks s limit e4 cy d).1.length ≤ limit ∧
    (dbGetRecommendedBooks s userId limit e5 e6 cy d).1.length ≤ limit ∧
    (memGetRecommendedBooks s userId limit).length ≤ limit :=
  ⟨dbGetBooks_length_le s limit offset,
   dbGetBooksByCategory_length_le s category limit offset e1 cy d,
   dbSearchBooks_length_le s query limit offset e2 cy d,
   dbGetTrendingBooks_length_le s limit e3 cy d,
   dbGetMostPurchasedBooks_length_le s limit e4 cy d,
   dbGetRecommendedBooks_length_le s userId limit e5 e6 cy d,
   memGetRecommendedBooks_length_le s userId limit⟩

/-! ## C4 — recommendations versus the interacted set -/

/-- C4 counterexample: the catalog holds exactly one book, which user 1
has rated 5.  The preference query excludes it, the trending top-up
filters it out, so the assembled list is empty — and the final fallback
returns plain trending, which is exactly that already-rated book.
`recommend(user 1, 1)` returns a book id from the user's rated set. -/
theorem recommend_returns_interacted_counterexample :
    (dbGetRecommendedBooks ratedStore 1 1 (some []) (some []) 2024 (fun _ => none)).1
      = [duneBook] ∧
    duneBook.id ∈ ratedBookIds ratedStore 1 := by
  constructor <;> decide

theorem not_mem_interacted {s : StoreState} {userId x : Nat}
    (h : x ∉ interactedBookIdsOf s userId) :
    x ∉ ratedBookIds s userId ∧ x ∉ savedBookIds s userId ∧
      x ∉ commentedBookIds s userId := by
  rw [interactedBookIdsOf, mem_dedupFirst] at h
  refine ⟨fun hx => h ?_, fun hx => h ?_, fun hx => h ?_⟩
  · refine List.mem_append.mpr (Or.inl (List.mem_append.mpr (Or.inl ?_)))
    obtain ⟨r, hr, hrx⟩ := List.mem_map.mp hx
    exact List.mem_map.mpr ⟨r, (mem_sortDescBy _ r _).mpr hr, hrx⟩
  · exact List.mem_append.mpr (Or.inl (List.mem_append.mpr (Or.inr hx)))
  · exact List.mem_append.mpr (Or.inr hx)

theorem preferenceRecs_not_interacted {s : StoreState} {userId limit : Nat}
    {bk : Book} (hbk : bk ∈ preferenceRecs s userId limit) :
    bk.id ∉ interactedBookIdsOf s userId := by
  have hmem := List.mem_of_mem_take hbk
  rw [mem_sortDescBy] at hmem
  have hp := (List.mem_filter.mp hmem).2
  simp only [Bool.and_eq_true, Bool.not_eq_true'] at hp
  simpa using hp.2

/-- C4 amended: `recommend(user, n)` never returns a book from the
user's interacted set (rated, saved or commented book ids), except when
it answers with a plain trending result — which happens on the no-history,
no-interacted-rows, no-identifiable-preference and empty-assembly
fallbacks, where unfiltered trending may contain interacted books (as the
counterexample exhibits). -/
theorem recommend_excludes_interacted (s : StoreState) (userId limit : Nat)
    (e1 e2 : Option (List OLDoc)) (cy : ℤ) (d : String → Option String) :
    (∀ bk ∈ (dbGetRecommendedBooks s userId limit e1 e2 cy d).1,
        bk.id ∉ ratedBookIds s userId ∧ bk.id ∉ savedBookIds s userId ∧
        bk.id ∉ commentedBookIds s userId) ∨
    (∃ s' e, (dbGetRecommendedBooks s userId limit e1 e2 cy d).1
        = (dbGetTrendingBooks s' limit e cy d).1) := by
  simp only [dbGetRecommendedBooks]
  split
  · exact Or.inr ⟨s, e2, rfl⟩
  · split
    · exact Or.inr ⟨s, e2, rfl⟩
    · split
      · exact Or.inr ⟨s, e2, rfl⟩
      · by_cases hlen : (preferenceRecs s userId limit).length < limit
        · simp only [if_pos hlen]
          split
          · exact Or.inr ⟨_, e2, rfl⟩
          · left
            intro bk hbk
            rcases List.mem_append.mp hbk with hmem | hmem
            · exact not_mem_interacted (preferenceRecs_not_interacted hmem)
            · have hmem2 := (List.mem_filter.mp (List.mem_of_mem_take hmem)).2
              simp only [Bool.and_eq_true, Bool.not_eq_true'] at hmem2
              apply not_mem_interacted
              simpa using hmem2.2
        · simp only [if_neg hlen]
          split
          · exact Or.inr ⟨_, e2, rfl⟩
          · left
            intro bk hbk
            exact not_mem_interacted (preferenceRecs_not_interacted hbk)

end BookElysium
